import Mathlib

/-!
Shallow embedding of the plexshelf-series matching engine.

Source files embedded here:
- src/app/matching/series_matcher.py   (SeriesMatcher)
- src/app/external/series_lookup.py    (SeriesLookup._lookup_google_books)
- src/src/web_app.py                   (approve/reject endpoints)
- src/app/gui/series_review_panel.py   (bulk review operations)
- src/app/database/models.py           (AudiobookItem, Series, SeriesMatch)

Python regular expressions used by SeriesMatcher.extract_series_info are
embedded via a small backtracking matcher faithful to re.search with
re.IGNORECASE on the exact constructs those patterns use.
-/

set_option autoImplicit false

namespace PlexShelf

/-! ## Regular-expression engine

The patterns in series_matcher.py use only: literal characters, the
classes . \s \d [^,] [,:-], the quantifiers + +? * ? applied to single
classes, and two capturing groups. re.search semantics: try each start
position left to right; at a position, backtracking with greedy / lazy
quantifier preference. re.IGNORECASE makes literals case-insensitive. -/

/-- Character classes occurring in the source's regular expressions. -/
inductive CharClass where
  | lit (c : Char)
  | any
  | notComma
  | ws
  | digit
  | oneOf (cs : List Char)
deriving Repr

/-- Does one input character match a class?  Literals compare
case-insensitively, mirroring re.IGNORECASE. -/
def classMatch : CharClass → Char → Bool
  | .lit c, h => h.toLower == c.toLower
  | .any, h => h != '\n'
  | .notComma, h => h != ','
  | .ws, h => h == ' ' || h == '\t' || h == '\n' || h == '\r' || h == '\x0b' || h == '\x0c'
  | .digit, h => '0' ≤ h && h ≤ '9'
  | .oneOf cs, h => cs.contains h

/-- Regex abstract syntax; quantifiers apply to single character classes,
which covers every pattern in series_matcher.py. -/
inductive Re where
  | eps
  | cls (c : CharClass)
  | opt (c : CharClass)
  | star (c : CharClass)
  | plus (c : CharClass)
  | lazyPlus (c : CharClass)
  | seq (a b : Re)
  | group (i : Nat) (r : Re)
deriving Repr

/-- Greedy Kleene star over one class, with backtracking into the
continuation. -/
def starK {α : Type} (c : CharClass) : List Char → (List Char → Option α) → Option α
  | [], k => k []
  | h :: t, k =>
    if classMatch c h then
      Option.orElse (starK c t k) (fun _ => k (h :: t))
    else k (h :: t)

/-- Lazy Kleene star over one class: prefer consuming nothing, extend on
failure of the continuation. -/
def lazyStarK {α : Type} (c : CharClass) : List Char → (List Char → Option α) → Option α
  | [], k => k []
  | h :: t, k =>
    Option.orElse (k (h :: t))
      (fun _ => if classMatch c h then lazyStarK c t k else none)

/-- Captures: group index paired with the consumed characters; the most
recent binding for a group is prepended. -/
abbrev Caps := List (Nat × List Char)

/-- Backtracking matcher in continuation-passing style.  The continuation
receives the remaining input and the captures accumulated on the current
(successful) path. -/
def matchRe : Re → List Char → Caps → (List Char → Caps → Option Caps) → Option Caps
  | .eps, input, caps, k => k input caps
  | .cls c, input, caps, k =>
    match input with
    | [] => none
    | h :: t => if classMatch c h then k t caps else none
  | .opt c, input, caps, k =>
    match input with
    | [] => k [] caps
    | h :: t =>
      if classMatch c h then Option.orElse (k t caps) (fun _ => k (h :: t) caps)
      else k (h :: t) caps
  | .star c, input, caps, k => starK c input (fun rest => k rest caps)
  | .plus c, input, caps, k =>
    match input with
    | [] => none
    | h :: t =>
      if classMatch c h then starK c t (fun rest => k rest caps) else none
  | .lazyPlus c, input, caps, k =>
    match input with
    | [] => none
    | h :: t =>
      if classMatch c h then lazyStarK c t (fun rest => k rest caps) else none
  | .seq a b, input, caps, k =>
    matchRe a input caps (fun rest caps1 => matchRe b rest caps1 k)
  | .group i r, input, caps, k =>
    matchRe r input caps (fun rest caps1 =>
      k rest ((i, input.take (input.length - rest.length)) :: caps1))

/-- re.search: try a match anchored at each start position, left to
right; the first position admitting a match wins. -/
def searchFrom (r : Re) : List Char → Option Caps
  | [] => matchRe r [] [] (fun _ caps => some caps)
  | h :: t =>
    Option.orElse (matchRe r (h :: t) [] (fun _ caps => some caps))
      (fun _ => searchFrom r t)

/-- Read one group out of a capture list (latest binding first). -/
def capOf (caps : Caps) (i : Nat) : String :=
  match caps.find? (fun p => p.1 == i) with
  | some p => String.mk p.2
  | none => ""

/-- match.group(1), match.group(2) of a successful re.search. -/
def reSearch2 (r : Re) (s : String) : Option (String × String) :=
  match searchFrom r s.toList with
  | some caps => some (capOf caps 1, capOf caps 2)
  | none => none

/-- Sequence a list of regex fragments. -/
def reSeq (rs : List Re) : Re := rs.foldr Re.seq Re.eps

/-- A run of case-insensitive literal characters. -/
def lits (s : String) : List Re := s.toList.map (fun c => Re.cls (.lit c))

/-! ## The source's patterns (series_matcher.py lines 44-65) -/

/-- Pattern r'\(([^,]+?),?\s*Book\s+(\d+)\)'. -/
def parenPat1 : Re := reSeq
  ([Re.cls (.lit '('), Re.group 1 (Re.lazyPlus .notComma),
    Re.opt (.lit ','), Re.star .ws] ++ lits "Book" ++
   [Re.plus .ws, Re.group 2 (Re.plus .digit), Re.cls (.lit ')')])

/-- Pattern r'\(([^,]+?)\s+Book\s+(\d+)\)'. -/
def parenPat2 : Re := reSeq
  ([Re.cls (.lit '('), Re.group 1 (Re.lazyPlus .notComma),
    Re.plus .ws] ++ lits "Book" ++
   [Re.plus .ws, Re.group 2 (Re.plus .digit), Re.cls (.lit ')')])

/-- Pattern r'\(([^,]+?)\s*#(\d+)\)'. -/
def parenPat3 : Re := reSeq
  [Re.cls (.lit '('), Re.group 1 (Re.lazyPlus .notComma),
   Re.star .ws, Re.cls (.lit '#'), Re.group 2 (Re.plus .digit), Re.cls (.lit ')')]

/-- Pattern r'\(([^,]+?),?\s*Vol\.?\s+(\d+)\)'. -/
def parenPat4 : Re := reSeq
  ([Re.cls (.lit '('), Re.group 1 (Re.lazyPlus .notComma),
    Re.opt (.lit ','), Re.star .ws] ++ lits "Vol" ++
   [Re.opt (.lit '.'), Re.plus .ws, Re.group 2 (Re.plus .digit), Re.cls (.lit ')')])

/-- Pattern r'\(([^,]+?),?\s*Volume\s+(\d+)\)'. -/
def parenPat5 : Re := reSeq
  ([Re.cls (.lit '('), Re.group 1 (Re.lazyPlus .notComma),
    Re.opt (.lit ','), Re.star .ws] ++ lits "Volume" ++
   [Re.plus .ws, Re.group 2 (Re.plus .digit), Re.cls (.lit ')')])

/-- The parenthetical patterns, in source listing order. -/
def parenthetical_patterns : List Re :=
  [parenPat1, parenPat2, parenPat3, parenPat4, parenPat5]

/-- Pattern r'(.+?)\s*[,:-]\s*Book\s+(\d+)'. -/
def seriesPat1 : Re := reSeq
  ([Re.group 1 (Re.lazyPlus .any), Re.star .ws,
    Re.cls (.oneOf [',', ':', '-']), Re.star .ws] ++ lits "Book" ++
   [Re.plus .ws, Re.group 2 (Re.plus .digit)])

/-- Pattern r'(.+?)\s*[,:-]\s*Vol\.?\s+(\d+)'. -/
def seriesPat2 : Re := reSeq
  ([Re.group 1 (Re.lazyPlus .any), Re.star .ws,
    Re.cls (.oneOf [',', ':', '-']), Re.star .ws] ++ lits "Vol" ++
   [Re.opt (.lit '.'), Re.plus .ws, Re.group 2 (Re.plus .digit)])

/-- Pattern r'(.+?)\s*[,:-]\s*Volume\s+(\d+)'. -/
def seriesPat3 : Re := reSeq
  ([Re.group 1 (Re.lazyPlus .any), Re.star .ws,
    Re.cls (.oneOf [',', ':', '-']), Re.star .ws] ++ lits "Volume" ++
   [Re.plus .ws, Re.group 2 (Re.plus .digit)])

/-- Pattern r'(.+?)\s*\(Book\s+(\d+)\)'. -/
def seriesPat4 : Re := reSeq
  ([Re.group 1 (Re.lazyPlus .any), Re.star .ws, Re.cls (.lit '(')] ++ lits "Book" ++
   [Re.plus .ws, Re.group 2 (Re.plus .digit), Re.cls (.lit ')')])

/-- Pattern r'(.+?)\s*#(\d+)'. -/
def seriesPat5 : Re := reSeq
  [Re.group 1 (Re.lazyPlus .any), Re.star .ws, Re.cls (.lit '#'),
   Re.group 2 (Re.plus .digit)]

/-- Pattern r'(.+?)\s*-\s*(\d+)'. -/
def seriesPat6 : Re := reSeq
  [Re.group 1 (Re.lazyPlus .any), Re.star .ws, Re.cls (.lit '-'),
   Re.star .ws, Re.group 2 (Re.plus .digit)]

/-- self.series_patterns, in source listing order. -/
def series_patterns : List Re :=
  [seriesPat1, seriesPat2, seriesPat3, seriesPat4, seriesPat5, seriesPat6]

/-- Python str.strip() whitespace set. -/
def pyIsSpace (c : Char) : Bool :=
  c == ' ' || c == '\t' || c == '\n' || c == '\r' || c == '\x0b' || c == '\x0c'

/-- Python str.strip(). -/
def pyStrip (s : String) : String :=
  String.mk (((s.toList.dropWhile pyIsSpace).reverse.dropWhile pyIsSpace).reverse)

/-- Loop of SeriesMatcher.extract_series_info over one pattern list:
return the groups of the first pattern that matches. -/
def firstPatternMatch (pats : List Re) (title : String) : Option (String × String) :=
  match pats with
  | [] => none
  | p :: rest =>
    Option.orElse (reSearch2 p title) (fun _ => firstPatternMatch rest title)

/-- SeriesMatcher.extract_series_info (series_matcher.py lines 53-82):
parenthetical patterns first, then the standard patterns; groups are
stripped; no match yields (None, None).  The empty title is falsy. -/
def extract_series_info (title : String) : Option String × Option String :=
  if title == "" then (none, none)
  else
    match firstPatternMatch parenthetical_patterns title with
    | some (g1, g2) => (some (pyStrip g1), some (pyStrip g2))
    | none =>
      match firstPatternMatch series_patterns title with
      | some (g1, g2) => (some (pyStrip g1), some (pyStrip g2))
      | none => (none, none)

example : extract_series_info "Stormbreaker (Alex Rider, Book 1)" =
    (some "Alex Rider", some "1") := by decide

example : extract_series_info "The Stand" = (none, none) := by decide

/-! ## Data model (database/models.py)

Entities carry only the columns the matching engine reads or writes.
Autoincrement primary keys are modelled by nextSeriesId / nextMatchId
counters on the database state. -/

/-- AudiobookItem (models.py lines 11-27). -/
structure Audiobook where
  id : Nat
  title : String
  author : Option String
  series_title : Option String
  series_index : Option String
deriving Repr, DecidableEq

/-- Series (models.py lines 33-48): total_books defaults to 0. -/
structure Series where
  id : Nat
  series_name : String
  author : Option String
  total_books : Nat
deriving Repr, DecidableEq

/-- SeriesMatch (models.py lines 51-60): both review flags default to
False. -/
structure SeriesMatch where
  id : Nat
  audiobook_id : Nat
  series_id : Nat
  confidence_score : Nat
  match_method : String
  user_approved : Bool
  user_rejected : Bool
deriving Repr, DecidableEq

/-- The relational store.  Lists keep table order (ascending insertion,
matching autoincrement ids), which is the order SQLAlchemy .first() and
.all() observe here. -/
structure DB where
  audiobooks : List Audiobook
  series : List Series
  series_matches : List SeriesMatch
  nextSeriesId : Nat
  nextMatchId : Nat
deriving Repr, DecidableEq

/-- Python truthiness of an optional string: None and the empty string
are falsy. -/
def truthy : Option String → Bool
  | none => false
  | some s => s != ""

/-- Case-insensitive contiguous-substring test on character lists. -/
def listContainsSub : List Char → List Char → Bool
  | hay, pat =>
    if pat.isPrefixOf hay then true
    else
      match hay with
      | [] => false
      | _ :: t => listContainsSub t pat

/-- Python str.lower(), character by character (structural so that
concrete states evaluate inside the kernel). -/
def pyLower (s : String) : String := String.mk (s.toList.map Char.toLower)

/-- SQL ILIKE with the pattern wrapped in percent signs on both sides,
as built in find_or_create_series: case-insensitive containment. -/
def ilikeContains (hay pat : String) : Bool :=
  listContainsSub ((pyLower hay).toList) ((pyLower pat).toList)

/-- Result dict of an external lookup: keys series_name and
series_index. -/
structure ExtResult where
  series_name : Option String
  series_index : Option String
deriving Repr, DecidableEq

/-- Configuration and collaborators of one SeriesMatcher instance.
fuzzPartialRatio and fuzzRatio stand for fuzz.partial_ratio and
fuzz.ratio of the external fuzzywuzzy library (both return integers in
0..100); series_lookup stands for SeriesLookup.lookup_by_title_author,
pure over one run because the lookup layer caches by (title, author). -/
structure MatcherConfig where
  confidence_threshold : Nat
  use_external_lookup : Bool
  series_lookup : Option (String → Option String → Option ExtResult)
  fuzzPartialRatio : String → String → Nat
  fuzzRatio : String → String → Nat

/-- Constructor default confidence_threshold=70 (series_matcher.py
line 16). -/
def defaultConfidenceThreshold : Nat := 70

/-- SeriesMatcher.find_or_create_series (lines 84-104): first series
whose name contains the candidate case-insensitively, else a new series
with total_books=0. -/
def find_or_create_series (db : DB) (series_name : String) (author : Option String) :
    Series × DB :=
  match db.series.find? (fun s => ilikeContains s.series_name series_name) with
  | some s => (s, db)
  | none =>
    let s : Series := ⟨db.nextSeriesId, series_name, author, 0⟩
    (s, { db with series := db.series ++ [s], nextSeriesId := db.nextSeriesId + 1 })

/-- Update the first list element satisfying p (SQLAlchemy .first() of a
filtered query, then attribute assignment). -/
def updateFirst {α : Type} (p : α → Bool) (f : α → α) : List α → List α
  | [] => []
  | x :: xs => if p x then f x :: xs else x :: updateFirst p f xs

/-- SeriesMatcher.match_audiobook_to_series (lines 106-126): upsert the
membership for (audiobook, series), updating score and method in place
when the pair already exists. -/
def match_audiobook_to_series (db : DB) (ab : Audiobook) (s : Series)
    (confidence : Nat) (method : String) : DB :=
  if db.series_matches.any (fun m => m.audiobook_id == ab.id && m.series_id == s.id) then
    { db with
      series_matches := updateFirst (fun m => m.audiobook_id == ab.id && m.series_id == s.id)
        (fun m => { m with confidence_score := confidence, match_method := method })
        db.series_matches }
  else
    { db with
      series_matches := db.series_matches ++ [⟨db.nextMatchId, ab.id, s.id, confidence, method, false, false⟩],
      nextMatchId := db.nextMatchId + 1 }

/-- Assignment audiobook.series_index = idx followed by commit: update
the row with that primary key. -/
def setSeriesIndex (db : DB) (abId : Nat) (idx : Option String) : DB :=
  { db with
    audiobooks := db.audiobooks.map
      (fun a => if a.id == abId then { a with series_index := idx } else a) }

/-- Score of one candidate series inside the loop of
_fuzzy_match_to_existing_series (lines 197-207): partial ratio of the
lowercased title against the lowercased series name, plus 10 when both
authors are truthy and their full ratio exceeds 80. -/
def fuzzyScore (cfg : MatcherConfig) (ab : Audiobook) (s : Series) : Nat :=
  let score := cfg.fuzzPartialRatio (pyLower ab.title) (pyLower s.series_name)
  if truthy ab.author && truthy s.author &&
      decide (cfg.fuzzRatio (pyLower (ab.author.getD "")) (pyLower (s.author.getD "")) > 80) then
    score + 10
  else score

/-- One iteration of the best-candidate loop (lines 209-211): the
running best is replaced only when the score strictly exceeds it and
meets the confidence threshold. -/
def fuzzyFold (cfg : MatcherConfig) (ab : Audiobook)
    (acc : Option Series × Nat) (s : Series) : Option Series × Nat :=
  let score := fuzzyScore cfg ab s
  if score > acc.2 && decide (score ≥ cfg.confidence_threshold) then (some s, score) else acc

/-- The full loop over all existing series, starting from
best_match=None, best_score=0. -/
def fuzzyBest (cfg : MatcherConfig) (ab : Audiobook) (all_series : List Series) :
    Option Series × Nat :=
  all_series.foldl (fuzzyFold cfg ab) (none, 0)

/-- SeriesMatcher._fuzzy_match_to_existing_series (lines 190-226). -/
def fuzzy_match_to_existing_series (cfg : MatcherConfig) (db : DB) (ab : Audiobook) : DB :=
  match fuzzyBest cfg ab db.series with
  | (some best, best_score) =>
    let db1 := match_audiobook_to_series db ab best best_score "fuzzy_match"
    let idx := (extract_series_info ab.title).2
    if truthy idx then setSeriesIndex db1 ab.id idx else db1
  | (none, _) => db

/-- Guard of the external stage (lines 135-141): the stage fires iff
external lookup is enabled, a lookup object exists, the lookup returned
a dict, and its series_name is truthy; the fired result is that dict. -/
def externalStageResult (cfg : MatcherConfig) (ab : Audiobook) : Option ExtResult :=
  if cfg.use_external_lookup then
    match cfg.series_lookup with
    | some lookup =>
      match lookup ab.title ab.author with
      | some r => if truthy r.series_name then some r else none
      | none => none
    | none => none
  else none

/-- Body of the per-audiobook loop of match_all_audiobooks (lines
133-185): the four stages in source order, stopping at the first that
succeeds; returns the new database state and the matches_found
increment. -/
def step (cfg : MatcherConfig) (db : DB) (ab : Audiobook) : DB × Nat :=
  match externalStageResult cfg ab with
  | some r =>
    let p := find_or_create_series db (r.series_name.getD "") ab.author
    let db2 := match_audiobook_to_series p.2 ab p.1 98 "external_api"
    let db3 :=
      if truthy r.series_index then setSeriesIndex db2 ab.id r.series_index
      else
        let idx := (extract_series_info ab.title).2
        if truthy idx then setSeriesIndex db2 ab.id idx else db2
    (db3, 1)
  | none =>
    if truthy ab.series_title then
      let p := find_or_create_series db (ab.series_title.getD "") ab.author
      (match_audiobook_to_series p.2 ab p.1 95 "metadata", 1)
    else
      let ex := extract_series_info ab.title
      if truthy ex.1 then
        let p := find_or_create_series db (ex.1.getD "") ab.author
        let db2 := match_audiobook_to_series p.2 ab p.1 85 "title_pattern"
        (setSeriesIndex db2 ab.id ex.2, 1)
      else
        (fuzzy_match_to_existing_series cfg db ab, 0)

/-- SeriesMatcher.match_all_audiobooks (lines 128-188): fold the step
over the snapshot of all audiobooks, accumulating matches_found. -/
def match_all_audiobooks (cfg : MatcherConfig) (db : DB) : DB × Nat :=
  db.audiobooks.foldl
    (fun acc ab =>
      let r := step cfg acc.1 ab
      (r.1, acc.2 + r.2))
    (db, 0)

/-! ## External lookup layer (external/series_lookup.py)

SeriesLookup._lookup_google_books is a state machine over a per-process
cache, a last-request timestamp and a rate-limit cooldown deadline.
Time is modelled in seconds as Nat, supplied as the current clock value;
the network is modelled as an oracle saying what the HTTP request would
return if issued.  The third component of the result records whether a
network request was issued. -/

/-- Outcome of the HTTP request, were one issued. -/
inductive GBResponse where
  | ok (seriesInfo : Option ExtResult)
  | status429
  | httpError (code : Nat)
deriving Repr, DecidableEq

/-- Mutable state of one SeriesLookup instance (series_lookup.py lines
18-22): cache, last_request_time, rate_limited_until; all start empty /
zero. -/
structure LookupState where
  cache : List (String × Option ExtResult)
  last_request_time : Nat
  rate_limited_until : Nat
deriving Repr, DecidableEq

/-- The fresh state built by SeriesLookup.__init__. -/
def initialLookupState : LookupState := ⟨[], 0, 0⟩

/-- min_request_interval for provider google_books (line 21), in
seconds. -/
def googleBooksInterval : Nat := 2

/-- The cache key f-string "{title}:{author}" (line 114); Python renders
a missing author as "None". -/
def gbCacheKey (title : String) (author : Option String) : String :=
  title ++ ":" ++ (match author with | some a => a | none => "None")

/-- Python dict membership plus read: the stored value may itself be
None (a cached negative outcome). -/
def cacheFind (cache : List (String × Option ExtResult)) (key : String) :
    Option (Option ExtResult) :=
  (cache.find? (fun p => p.1 == key)).map (fun p => p.2)

/-- Python dict assignment: overwrite the binding of an existing key in
place, else append the new binding at the end (Python dicts preserve
insertion order). -/
def cacheInsert : List (String × Option ExtResult) → String → Option ExtResult →
    List (String × Option ExtResult)
  | [], key, v => [(key, v)]
  | p :: rest, key, v =>
    if p.1 == key then (key, v) :: rest else p :: cacheInsert rest key v

/-- SeriesLookup._lookup_google_books (lines 112-195).  Order of the
branches follows the source: cache hit first, then the cooldown gate,
then the inter-request sleep (the request goes out at reqT, which also
becomes last_request_time), then the response cases: HTTP 429 starts a
60-second cooldown and caches a negative outcome; a usable seriesInfo is
cached and returned; anything else is cached as a negative outcome. -/
def lookup_google_books (minInterval : Nat) (st : LookupState)
    (title : String) (author : Option String) (now : Nat) (net : GBResponse) :
    Option ExtResult × LookupState × Bool :=
  let key := gbCacheKey title author
  match cacheFind st.cache key with
  | some v => (v, st, false)
  | none =>
    if now < st.rate_limited_until then
      (none, { st with cache := cacheInsert st.cache key none }, false)
    else
      let reqT :=
        if now < st.last_request_time + minInterval then st.last_request_time + minInterval
        else now
      let st1 := { st with last_request_time := reqT }
      match net with
      | .status429 =>
        (none, { st1 with rate_limited_until := reqT + 60,
                          cache := cacheInsert st1.cache key none }, true)
      | .ok (some info) =>
        (some info, { st1 with cache := cacheInsert st1.cache key (some info) }, true)
      | .ok none =>
        (none, { st1 with cache := cacheInsert st1.cache key none }, true)
      | .httpError code =>
        if code == 429 then
          (none, { st1 with rate_limited_until := reqT + 60,
                            cache := cacheInsert st1.cache key none }, true)
        else
          (none, { st1 with cache := cacheInsert st1.cache key none }, true)

/-! ## Review operations (web_app.py, gui/series_review_panel.py) -/

/-- web_app.approve_match (lines 256-273): on the row with the given
primary key set user_approved=True, user_rejected=False; unknown id is a
no-op. -/
def approve_match (ms : List SeriesMatch) (matchId : Nat) : List SeriesMatch :=
  ms.map (fun m =>
    if m.id == matchId then { m with user_approved := true, user_rejected := false } else m)

/-- web_app.reject_match (lines 274-290): user_approved=False,
user_rejected=True. -/
def reject_match (ms : List SeriesMatch) (matchId : Nat) : List SeriesMatch :=
  ms.map (fun m =>
    if m.id == matchId then { m with user_approved := false, user_rejected := true } else m)

/-- SeriesReviewPanel._approve_selected (lines 178-204): the point
approval applied to each selected id. -/
def approve_selected (ms : List SeriesMatch) (ids : List Nat) : List SeriesMatch :=
  ids.foldl approve_match ms

/-- SeriesReviewPanel._reject_selected (lines 206-232). -/
def reject_selected (ms : List SeriesMatch) (ids : List Nat) : List SeriesMatch :=
  ids.foldl reject_match ms

/-- web_app.approve_all_matches (lines 292-314): every pending row gets
user_approved=True, user_rejected=False. -/
def approve_all_matches (ms : List SeriesMatch) : List SeriesMatch :=
  ms.map (fun m =>
    if !m.user_approved && !m.user_rejected then
      { m with user_approved := true, user_rejected := false }
    else m)

/-- web_app.reject_all_matches (lines 316-338). -/
def reject_all_matches (ms : List SeriesMatch) : List SeriesMatch :=
  ms.map (fun m =>
    if !m.user_approved && !m.user_rejected then
      { m with user_approved := false, user_rejected := true }
    else m)

/-- SeriesReviewPanel._approve_high_confidence (lines 234-258): rows
with confidence_score >= 90 that are pending get user_approved=True;
user_rejected is not written. -/
def approve_high_confidence (ms : List SeriesMatch) : List SeriesMatch :=
  ms.map (fun m =>
    if decide (m.confidence_score ≥ 90) && !m.user_approved && !m.user_rejected then
      { m with user_approved := true }
    else m)

/-- The closed set of review-state operations reachable from the web
endpoints and the review panel. -/
inductive ReviewOp where
  | approve (matchId : Nat)
  | reject (matchId : Nat)
  | approveSelected (ids : List Nat)
  | rejectSelected (ids : List Nat)
  | approveAll
  | rejectAll
  | autoApprove
deriving Repr, DecidableEq

/-- Dispatch one review operation. -/
def applyReviewOp (ms : List SeriesMatch) : ReviewOp → List SeriesMatch
  | .approve i => approve_match ms i
  | .reject i => reject_match ms i
  | .approveSelected ids => approve_selected ms ids
  | .rejectSelected ids => reject_selected ms ids
  | .approveAll => approve_all_matches ms
  | .rejectAll => reject_all_matches ms
  | .autoApprove => approve_high_confidence ms

/-- A sequence of review operations, applied left to right. -/
def applyReviewOps (ms : List SeriesMatch) (ops : List ReviewOp) : List SeriesMatch :=
  ops.foldl applyReviewOp ms

/-! ## Review state machine: helper lemmas -/

/-- Boolean form of the review invariant: no row has both flags set. -/
def flagsExclusiveB (ms : List SeriesMatch) : Bool :=
  ms.all (fun m => !(m.user_approved && m.user_rejected))

theorem flagsExclusiveB_map (ms : List SeriesMatch) (f : SeriesMatch → SeriesMatch)
    (hf : ∀ m : SeriesMatch, (!(m.user_approved && m.user_rejected)) = true →
      (!((f m).user_approved && (f m).user_rejected)) = true)
    (h : flagsExclusiveB ms = true) : flagsExclusiveB (ms.map f) = true := by
  simp only [flagsExclusiveB, List.all_eq_true] at h ⊢
  intro m hm
  rcases List.mem_map.1 hm with ⟨m0, hm0, rfl⟩
  exact hf m0 (h m0 hm0)

theorem approve_match_flags (ms : List SeriesMatch) (i : Nat)
    (h : flagsExclusiveB ms = true) : flagsExclusiveB (approve_match ms i) = true := by
  refine flagsExclusiveB_map ms _ ?_ h
  intro m hm
  by_cases hid : m.id == i <;> simp_all

theorem reject_match_flags (ms : List SeriesMatch) (i : Nat)
    (h : flagsExclusiveB ms = true) : flagsExclusiveB (reject_match ms i) = true := by
  refine flagsExclusiveB_map ms _ ?_ h
  intro m hm
  by_cases hid : m.id == i <;> simp_all

theorem approve_selected_flags (ids : List Nat) (ms : List SeriesMatch)
    (h : flagsExclusiveB ms = true) : flagsExclusiveB (approve_selected ms ids) = true := by
  induction ids generalizing ms with
  | nil => exact h
  | cons i rest ih => exact ih _ (approve_match_flags ms i h)

theorem reject_selected_flags (ids : List Nat) (ms : List SeriesMatch)
    (h : flagsExclusiveB ms = true) : flagsExclusiveB (reject_selected ms ids) = true := by
  induction ids generalizing ms with
  | nil => exact h
  | cons i rest ih => exact ih _ (reject_match_flags ms i h)

theorem applyReviewOp_flags (ms : List SeriesMatch) (op : ReviewOp)
    (h : flagsExclusiveB ms = true) : flagsExclusiveB (applyReviewOp ms op) = true := by
  cases op with
  | approve i => exact approve_match_flags ms i h
  | reject i => exact reject_match_flags ms i h
  | approveSelected ids => exact approve_selected_flags ids ms h
  | rejectSelected ids => exact reject_selected_flags ids ms h
  | approveAll =>
    refine flagsExclusiveB_map ms _ ?_ h
    intro m hm
    by_cases ha : m.user_approved <;> by_cases hr : m.user_rejected <;> simp_all
  | rejectAll =>
    refine flagsExclusiveB_map ms _ ?_ h
    intro m hm
    by_cases ha : m.user_approved <;> by_cases hr : m.user_rejected <;> simp_all
  | autoApprove =>
    refine flagsExclusiveB_map ms _ ?_ h
    intro m hm
    split
    · rename_i hcond
      simp only [Bool.and_eq_true, Bool.not_eq_true'] at hcond
      simp [hcond.2]
    · exact hm

theorem applyReviewOps_flags (ops : List ReviewOp) (ms : List SeriesMatch)
    (h : flagsExclusiveB ms = true) : flagsExclusiveB (applyReviewOps ms ops) = true := by
  induction ops generalizing ms with
  | nil => exact h
  | cons op rest ih => exact ih _ (applyReviewOp_flags ms op h)

/-- In both point mutations the primary key of a row is never written. -/
theorem approve_match_id_eq (i : Nat) (m : SeriesMatch) :
    ((fun m : SeriesMatch =>
      if m.id == i then { m with user_approved := true, user_rejected := false } else m) m).id
      = m.id := by
  by_cases hid : m.id == i <;> simp [hid]

/-- C4: starting from states where no membership has both review flags
set (in particular all-pending states), no sequence of approve, reject,
bulk approve/reject, approve-all, reject-all or auto-approve operations
ever produces a membership with approved and rejected both true; and
approve(id) followed by reject(id) leaves the row with that id at
approved=false, rejected=true. -/
theorem C4_review_flags (ms : List SeriesMatch) (ops : List ReviewOp)
    (h : flagsExclusiveB ms = true) :
    flagsExclusiveB (applyReviewOps ms ops) = true ∧
    ∀ matchId m, m ∈ reject_match (approve_match ms matchId) matchId →
      m.id = matchId → m.user_approved = false ∧ m.user_rejected = true := by
  refine ⟨applyReviewOps_flags ops ms h, ?_⟩
  intro matchId m hm hid
  simp only [reject_match, approve_match, List.map_map, List.mem_map] at hm
  rcases hm with ⟨m0, _, rfl⟩
  by_cases h0 : m0.id == matchId
  · simp [Function.comp, h0]
  · exfalso
    apply h0
    simp only [Function.comp] at hid
    rw [beq_iff_eq]
    simpa [h0] using hid

/-- Witness for C4 on a concrete pending membership. -/
theorem C4_review_flags_witness :
    flagsExclusiveB (applyReviewOps
      [⟨1, 1, 1, 95, "metadata", false, false⟩] [ReviewOp.approve 1, ReviewOp.reject 1]) = true ∧
    ∀ m, m ∈ reject_match (approve_match [⟨1, 1, 1, 95, "metadata", false, false⟩] 1) 1 →
      m.id = 1 → m.user_approved = false ∧ m.user_rejected = true := by
  have h := C4_review_flags [⟨1, 1, 1, 95, "metadata", false, false⟩]
    [ReviewOp.approve 1, ReviewOp.reject 1] (by decide)
  exact ⟨h.1, h.2 1⟩

/-- C8: auto-approve (the high-confidence bulk approval) rewrites the
membership table pointwise: a row that is pending (both flags false) and
scores at least 90 gets approved=true; every other row, including
lower-scored pending rows, is returned entirely unchanged. -/
theorem C8_auto_approve_exact (ms : List SeriesMatch) :
    List.Forall₂
      (fun m m2 =>
        m2 = if 90 ≤ m.confidence_score ∧ m.user_approved = false ∧ m.user_rejected = false
             then { m with user_approved := true } else m)
      ms (approve_high_confidence ms) := by
  induction ms with
  | nil => simp [approve_high_confidence]
  | cons m rest ih =>
    refine List.Forall₂.cons ?_ ?_
    · by_cases h90 : 90 ≤ m.confidence_score <;> by_cases ha : m.user_approved <;>
        by_cases hr : m.user_rejected <;>
        simp [approve_high_confidence, h90, ha, hr, ge_iff_le]
    · simpa [approve_high_confidence] using ih

/-- C9: the parenthetical pattern list takes precedence: whenever any
parenthetical pattern matches a title, extract_series_info returns that
match's stripped groups (the inline pattern list is never consulted);
and on the spec's example the parenthetical result is
("Alex Rider", "1"). -/
theorem C9_paren_precedence :
    extract_series_info "Stormbreaker (Alex Rider, Book 1)" = (some "Alex Rider", some "1") ∧
    ∀ (title : String) (g : String × String),
      firstPatternMatch parenthetical_patterns title = some g →
      extract_series_info title = (some (pyStrip g.1), some (pyStrip g.2)) := by
  constructor
  · decide
  · intro title g h
    by_cases ht : title = ""
    · rw [ht] at h
      rw [(by decide : firstPatternMatch parenthetical_patterns "" = none)] at h
      exact absurd h (by simp)
    · simp [extract_series_info, beq_iff_eq, ht, h]

/-- Witness for C9 at the spec's example title. -/
theorem C9_paren_precedence_witness :
    extract_series_info "Stormbreaker (Alex Rider, Book 1)" =
      (some (pyStrip "Alex Rider"), some (pyStrip "1")) :=
  C9_paren_precedence.2 "Stormbreaker (Alex Rider, Book 1)" ("Alex Rider", "1") (by decide)

/-! ## Frame lemmas for the matcher's state transformers -/

@[simp] theorem match_audiobook_series (db : DB) (ab : Audiobook) (s : Series)
    (c : Nat) (meth : String) :
    (match_audiobook_to_series db ab s c meth).series = db.series := by
  unfold match_audiobook_to_series; split <;> rfl

@[simp] theorem match_audiobook_audiobooks (db : DB) (ab : Audiobook) (s : Series)
    (c : Nat) (meth : String) :
    (match_audiobook_to_series db ab s c meth).audiobooks = db.audiobooks := by
  unfold match_audiobook_to_series; split <;> rfl

@[simp] theorem setSeriesIndex_series (db : DB) (i : Nat) (idx : Option String) :
    (setSeriesIndex db i idx).series = db.series := rfl

@[simp] theorem setSeriesIndex_series_matches (db : DB) (i : Nat) (idx : Option String) :
    (setSeriesIndex db i idx).series_matches = db.series_matches := rfl

@[simp] theorem find_or_create_series_matches (db : DB) (nm : String) (au : Option String) :
    (find_or_create_series db nm au).2.series_matches = db.series_matches := by
  unfold find_or_create_series
  cases db.series.find? (fun s2 => ilikeContains s2.series_name nm) <;> rfl

@[simp] theorem fuzzy_match_series (cfg : MatcherConfig) (db : DB) (ab : Audiobook) :
    (fuzzy_match_to_existing_series cfg db ab).series = db.series := by
  unfold fuzzy_match_to_existing_series
  split
  · simp only []
    split <;> simp
  · rfl

/-! ## updateFirst and upsert lemmas -/

theorem updateFirst_length {α : Type} (p : α → Bool) (f : α → α) (l : List α) :
    (updateFirst p f l).length = l.length := by
  induction l with
  | nil => rfl
  | cons x xs ih => unfold updateFirst; split <;> simp [ih]

theorem mem_updateFirst {α : Type} (p : α → Bool) (f : α → α) (l : List α) (x : α)
    (hx : x ∈ updateFirst p f l) : x ∈ l ∨ ∃ y ∈ l, p y = true ∧ x = f y := by
  induction l with
  | nil => exact absurd hx (by simp [updateFirst])
  | cons z zs ih =>
    unfold updateFirst at hx
    by_cases hz : p z
    · rw [if_pos hz] at hx
      rcases List.mem_cons.1 hx with h | h
      · exact Or.inr ⟨z, List.mem_cons_self z zs, hz, h⟩
      · exact Or.inl (List.mem_cons_of_mem z h)
    · rw [if_neg hz] at hx
      rcases List.mem_cons.1 hx with h | h
      · exact Or.inl (h ▸ List.mem_cons_self z zs)
      · rcases ih h with h2 | ⟨y, hy, hpy, hxy⟩
        · exact Or.inl (List.mem_cons_of_mem z h2)
        · exact Or.inr ⟨y, List.mem_cons_of_mem z hy, hpy, hxy⟩

theorem exists_mem_updateFirst {α : Type} (p : α → Bool) (f : α → α) (l : List α)
    (h : l.any p = true) : ∃ y ∈ l, p y = true ∧ f y ∈ updateFirst p f l := by
  induction l with
  | nil => exact absurd h (by simp)
  | cons z zs ih =>
    by_cases hz : p z
    · exact ⟨z, List.mem_cons_self z zs, hz, by simp [updateFirst, hz]⟩
    · have h2 : zs.any p = true := by
        rcases List.any_eq_true.1 h with ⟨y, hy, hpy⟩
        rcases List.mem_cons.1 hy with rfl | hy2
        · exact absurd hpy hz
        · exact List.any_eq_true.2 ⟨y, hy2, hpy⟩
      rcases ih h2 with ⟨y, hy, hpy, hmem⟩
      exact ⟨y, List.mem_cons_of_mem z hy, hpy, by simp [updateFirst, hz, hmem]⟩

/-- Every membership of the upserted table is either an untouched old
row or carries exactly the written pair, score and method. -/
theorem match_audiobook_mem_src (db : DB) (ab : Audiobook) (s : Series) (c : Nat)
    (meth : String) (m : SeriesMatch)
    (hm : m ∈ (match_audiobook_to_series db ab s c meth).series_matches) :
    m ∈ db.series_matches ∨
      (m.audiobook_id = ab.id ∧ m.series_id = s.id ∧
       m.confidence_score = c ∧ m.match_method = meth) := by
  unfold match_audiobook_to_series at hm
  by_cases hany : db.series_matches.any
      (fun m2 => m2.audiobook_id == ab.id && m2.series_id == s.id)
  · rw [if_pos hany] at hm
    rcases mem_updateFirst _ _ _ _ hm with h | ⟨y, _, hpy, rfl⟩
    · exact Or.inl h
    · simp only [Bool.and_eq_true, beq_iff_eq] at hpy
      exact Or.inr ⟨hpy.1, hpy.2, rfl, rfl⟩
  · rw [if_neg hany] at hm
    rcases List.mem_append.1 hm with h | h
    · exact Or.inl h
    · rcases List.mem_singleton.1 h with rfl
      exact Or.inr ⟨rfl, rfl, rfl, rfl⟩

/-- The upsert leaves a membership with the written pair, score and
method in the table. -/
theorem match_audiobook_upsert_mem (db : DB) (ab : Audiobook) (s : Series) (c : Nat)
    (meth : String) :
    ∃ m ∈ (match_audiobook_to_series db ab s c meth).series_matches,
      m.audiobook_id = ab.id ∧ m.series_id = s.id ∧
      m.confidence_score = c ∧ m.match_method = meth := by
  unfold match_audiobook_to_series
  by_cases hany : db.series_matches.any
      (fun m2 => m2.audiobook_id == ab.id && m2.series_id == s.id)
  · rw [if_pos hany]
    rcases exists_mem_updateFirst _
      (fun m2 => { m2 with confidence_score := c, match_method := meth })
      db.series_matches hany with ⟨y, _, hpy, hmem⟩
    simp only [Bool.and_eq_true, beq_iff_eq] at hpy
    exact ⟨_, hmem, hpy.1, hpy.2, rfl, rfl⟩
  · rw [if_neg hany]
    exact ⟨_, List.mem_append_right _ (List.mem_singleton_self _), rfl, rfl, rfl, rfl⟩

/-- The upsert grows the membership table by at most one row. -/
theorem match_audiobook_len_le (db : DB) (ab : Audiobook) (s : Series) (c : Nat)
    (meth : String) :
    (match_audiobook_to_series db ab s c meth).series_matches.length ≤
      db.series_matches.length + 1 := by
  unfold match_audiobook_to_series
  split
  · simp [updateFirst_length]
  · simp

/-! ## Fuzzy matching: best-candidate lemmas -/

theorem fuzzyBest_aux_spec (cfg : MatcherConfig) (ab : Audiobook) (l : List Series)
    (acc : Option Series × Nat) (s : Series) (sc : Nat)
    (h : l.foldl (fuzzyFold cfg ab) acc = (some s, sc)) :
    acc = (some s, sc) ∨
      (s ∈ l ∧ sc = fuzzyScore cfg ab s ∧ cfg.confidence_threshold ≤ sc) := by
  induction l generalizing acc with
  | nil => exact Or.inl h
  | cons a l ih =>
    rw [List.foldl_cons] at h
    rcases ih (fuzzyFold cfg ab acc a) h with h1 | h1
    · simp only [fuzzyFold] at h1
      split at h1
      · rename_i hcond
        simp only [Bool.and_eq_true, decide_eq_true_eq, ge_iff_le] at hcond
        have hs2 : a = s := Option.some.inj (congrArg Prod.fst h1)
        have hsc : fuzzyScore cfg ab a = sc := congrArg Prod.snd h1
        subst hs2
        subst hsc
        exact Or.inr ⟨List.mem_cons_self _ _, rfl, hcond.2⟩
      · exact Or.inl h1
    · exact Or.inr ⟨List.mem_cons_of_mem a h1.1, h1.2⟩

/-- When fuzzyBest elects a candidate, that candidate is a real existing
series, the reported score is its fuzzy score, and the score meets the
confidence threshold. -/
theorem fuzzyBest_some_spec (cfg : MatcherConfig) (ab : Audiobook) (l : List Series)
    (s : Series) (sc : Nat) (h : fuzzyBest cfg ab l = (some s, sc)) :
    s ∈ l ∧ sc = fuzzyScore cfg ab s ∧ cfg.confidence_threshold ≤ sc := by
  rcases fuzzyBest_aux_spec cfg ab l (none, 0) s sc h with h1 | h1
  · exact absurd h1 (by simp)
  · exact h1

theorem fuzzyBest_aux_below (cfg : MatcherConfig) (ab : Audiobook) (l : List Series)
    (acc : Option Series × Nat)
    (hall : ∀ s ∈ l, fuzzyScore cfg ab s < cfg.confidence_threshold) :
    l.foldl (fuzzyFold cfg ab) acc = acc := by
  induction l generalizing acc with
  | nil => rfl
  | cons a l ih =>
    have ha := hall a (List.mem_cons_self a l)
    have hstep : fuzzyFold cfg ab acc a = acc := by
      unfold fuzzyFold
      have hdec : decide (fuzzyScore cfg ab a ≥ cfg.confidence_threshold) = false := by
        simp only [ge_iff_le, decide_eq_false_iff_not, not_le]
        omega
      simp [hdec]
    rw [List.foldl_cons, hstep]
    exact ih _ (fun s hs => hall s (List.mem_cons_of_mem a hs))

/-- C7: the fuzzy fallback writes a membership only via a candidate
whose score (partial-ratio plus the +10 author bonus folded into
fuzzyScore) meets the configured confidence threshold; when every
existing series scores below the threshold the database is returned
entirely unchanged, even though a best-scoring candidate exists. -/
theorem C7_fuzzy_threshold (cfg : MatcherConfig) (db : DB) (ab : Audiobook) :
    ((∀ s ∈ db.series, fuzzyScore cfg ab s < cfg.confidence_threshold) →
      fuzzy_match_to_existing_series cfg db ab = db) ∧
    (∀ s sc, fuzzyBest cfg ab db.series = (some s, sc) →
      s ∈ db.series ∧ sc = fuzzyScore cfg ab s ∧ cfg.confidence_threshold ≤ sc) := by
  constructor
  · intro hall
    unfold fuzzy_match_to_existing_series
    have hb : fuzzyBest cfg ab db.series = (none, 0) :=
      fuzzyBest_aux_below cfg ab db.series (none, 0) hall
    rw [hb]
  · intro s sc h
    exact fuzzyBest_some_spec cfg ab db.series s sc h

/-- Concrete scenario for the C7 witness: one known series, similarity
oracles pinned below the threshold. -/
def cfgC7 : MatcherConfig :=
  ⟨defaultConfidenceThreshold, false, none, fun _ _ => 50, fun _ _ => 0⟩

def dbC7 : DB :=
  ⟨[⟨1, "Lone Novel", none, none, none⟩], [⟨1, "Alex Rider", none, 0⟩], [], 2, 1⟩

/-- Witness for C7: with every candidate scoring 50 < 70 the fuzzy
fallback changes nothing. -/
theorem C7_fuzzy_threshold_witness :
    fuzzy_match_to_existing_series cfgC7 dbC7 ⟨1, "Lone Novel", none, none, none⟩ = dbC7 :=
  (C7_fuzzy_threshold cfgC7 dbC7 ⟨1, "Lone Novel", none, none, none⟩).1 (by decide)

/-! ## Series table frame: the pipeline only appends fresh zero-count
series and never rewrites an existing Series row -/

theorem find_or_create_series_extends (db : DB) (nm : String) (au : Option String) :
    ∃ tail : List Series, (∀ s ∈ tail, s.total_books = 0) ∧
      (find_or_create_series db nm au).2.series = db.series ++ tail := by
  unfold find_or_create_series
  cases h : db.series.find? (fun s2 => ilikeContains s2.series_name nm) with
  | some s => exact ⟨[], by simp, by simp⟩
  | none => exact ⟨[⟨db.nextSeriesId, nm, au, 0⟩], by simp, by simp⟩

theorem step_series_extends (cfg : MatcherConfig) (db : DB) (ab : Audiobook) :
    ∃ tail : List Series, (∀ s ∈ tail, s.total_books = 0) ∧
      (step cfg db ab).1.series = db.series ++ tail := by
  cases hext : externalStageResult cfg ab with
  | some r =>
    rcases find_or_create_series_extends db (r.series_name.getD "") ab.author with ⟨t, ht, he⟩
    refine ⟨t, ht, ?_⟩
    simp only [step, hext]
    split
    · simpa using he
    · split <;> simpa using he
  | none =>
    by_cases hst : truthy ab.series_title
    · rcases find_or_create_series_extends db (ab.series_title.getD "") ab.author with ⟨t, ht, he⟩
      refine ⟨t, ht, ?_⟩
      simp only [step, hext, hst]
      simpa using he
    · by_cases hexi : truthy (extract_series_info ab.title).1
      · rcases find_or_create_series_extends db ((extract_series_info ab.title).1.getD "")
          ab.author with ⟨t, ht, he⟩
        refine ⟨t, ht, ?_⟩
        simp only [step, hext, hst, hexi]
        simpa using he
      · refine ⟨[], by simp, ?_⟩
        simp [step, hext, hst, hexi]

theorem match_all_series_extends (cfg : MatcherConfig) (l : List Audiobook) (db0 : DB)
    (n : Nat) :
    ∃ tail : List Series, (∀ s ∈ tail, s.total_books = 0) ∧
      (l.foldl (fun acc ab =>
        let r := step cfg acc.1 ab
        (r.1, acc.2 + r.2)) (db0, n)).1.series = db0.series ++ tail := by
  induction l generalizing db0 n with
  | nil => exact ⟨[], by simp, by simp⟩
  | cons ab l ih =>
    rcases step_series_extends cfg db0 ab with ⟨t1, ht1, he1⟩
    rcases ih (step cfg db0 ab).1 (n + (step cfg db0 ab).2) with ⟨t2, ht2, he2⟩
    refine ⟨t1 ++ t2, ?_, ?_⟩
    · intro s hs
      rcases List.mem_append.1 hs with h | h
      · exact ht1 s h
      · exact ht2 s h
    · rw [List.foldl_cons]
      calc (l.foldl (fun acc ab =>
              let r := step cfg acc.1 ab
              (r.1, acc.2 + r.2)) ((step cfg db0 ab).1, n + (step cfg db0 ab).2)).1.series
          = (step cfg db0 ab).1.series ++ t2 := he2
        _ = (db0.series ++ t1) ++ t2 := by rw [he1]
        _ = db0.series ++ (t1 ++ t2) := List.append_assoc ..

/-- C10: series resolution never maintains the stored book count.  When
the case-insensitive substring lookup finds an existing series,
find_or_create_series returns that stored row itself with the database
untouched; a created series starts with total_books = 0; and across a
whole pipeline run every pre-existing Series row survives unchanged
while every row of the final series table still has total_books = 0
whenever the initial table did. -/
theorem C10_total_books_frame (cfg : MatcherConfig) (db : DB) (name : String)
    (author : Option String) :
    (∀ s, db.series.find? (fun s2 => ilikeContains s2.series_name name) = some s →
      find_or_create_series db name author = (s, db)) ∧
    (db.series.find? (fun s2 => ilikeContains s2.series_name name) = none →
      (find_or_create_series db name author).1.total_books = 0) ∧
    (∀ s ∈ db.series, s ∈ (match_all_audiobooks cfg db).1.series) ∧
    ((∀ s ∈ db.series, s.total_books = 0) →
      ∀ s ∈ (match_all_audiobooks cfg db).1.series, s.total_books = 0) := by
  have hext := match_all_series_extends cfg db.audiobooks db 0
  rcases hext with ⟨tail, htail, he⟩
  have he2 : (match_all_audiobooks cfg db).1.series = db.series ++ tail := he
  refine ⟨?_, ?_, ?_, ?_⟩
  · intro s h
    unfold find_or_create_series
    rw [h]
  · intro h
    unfold find_or_create_series
    rw [h]
  · intro s hs
    rw [he2]
    exact List.mem_append_left tail hs
  · intro h0 s hs
    rw [he2] at hs
    rcases List.mem_append.1 hs with h | h
    · exact h0 s h
    · exact htail s h

/-- Concrete scenario for the C10 witness: one pre-existing series and
one audiobook that the title-pattern stage resolves to a new series. -/
def cfgC10 : MatcherConfig := ⟨70, false, none, fun _ _ => 0, fun _ _ => 0⟩

def dbC10 : DB :=
  ⟨[⟨1, "Stormbreaker (Alex Rider, Book 1)", some "Anthony Horowitz", none, none⟩],
   [⟨1, "Discworld", some "Terry Pratchett", 0⟩], [], 2, 1⟩

/-- Witness for C10: the existing row is returned as stored, and after
a full run every series row still carries total_books = 0. -/
theorem C10_total_books_frame_witness :
    find_or_create_series dbC10 "Discworld" (some "X") =
      (⟨1, "Discworld", some "Terry Pratchett", 0⟩, dbC10) ∧
    ∀ s ∈ (match_all_audiobooks cfgC10 dbC10).1.series, s.total_books = 0 := by
  have h := C10_total_books_frame cfgC10 dbC10 "Discworld" (some "X")
  exact ⟨h.1 ⟨1, "Discworld", some "Terry Pratchett", 0⟩ (by decide), h.2.2.2 (by decide)⟩

/-! ## The returned matches_found count -/

/-- The three stage guards that increment matches_found, read off the
per-record loop: external success (lines 141-160), truthy embedded hint
(line 163), truthy extracted series name (line 174).  All three depend
only on the record and the configuration, never on the evolving
database. -/
def countedStage (cfg : MatcherConfig) (ab : Audiobook) : Bool :=
  (externalStageResult cfg ab).isSome || truthy ab.series_title ||
    truthy (extract_series_info ab.title).1

theorem step_count (cfg : MatcherConfig) (db : DB) (ab : Audiobook) :
    (step cfg db ab).2 = if countedStage cfg ab then 1 else 0 := by
  cases hext : externalStageResult cfg ab with
  | some r => simp [step, hext, countedStage]
  | none =>
    by_cases hst : truthy ab.series_title
    · simp [step, hext, hst, countedStage]
    · by_cases hexi : truthy (extract_series_info ab.title).1 <;>
        simp [step, hext, hst, hexi, countedStage]

theorem match_all_count_aux (cfg : MatcherConfig) (l : List Audiobook) (db0 : DB) (n : Nat) :
    (l.foldl (fun acc ab =>
      let r := step cfg acc.1 ab
      (r.1, acc.2 + r.2)) (db0, n)).2 = n + l.countP (countedStage cfg) := by
  induction l generalizing db0 n with
  | nil => simp
  | cons ab l ih =>
    rw [List.foldl_cons]
    refine Eq.trans (ih (step cfg db0 ab).1 (n + (step cfg db0 ab).2)) ?_
    rw [step_count, List.countP_cons]
    by_cases h : countedStage cfg ab <;> (simp [h]; try omega)

/-- C6 (amended): match_all_audiobooks returns the number of records on
which one of the first three stages fired (external lookup, embedded
hint, title pattern); a record matched only by the fuzzy fallback still
gets its membership written but is not counted, and a record on which
every stage fails changes nothing and raises no error. -/
theorem C6_returned_count (cfg : MatcherConfig) (db : DB) :
    (match_all_audiobooks cfg db).2 = db.audiobooks.countP (countedStage cfg) := by
  have h := match_all_count_aux cfg db.audiobooks db 0
  simpa [match_all_audiobooks] using h

/-- A concrete similarity oracle for closed scenarios: 100 when one
lowercased string contains the other, else 0.  fuzzywuzzy's
fuzz.partial_ratio and fuzz.ratio also return 100 in the containment /
equality situations those scenarios exercise. -/
def containsSim (a b : String) : Nat :=
  if listContainsSub a.toList b.toList || listContainsSub b.toList a.toList then 100 else 0

def cfgC6 : MatcherConfig := ⟨70, false, none, containsSim, containsSim⟩

def dbC6 : DB :=
  ⟨[⟨1, "Alex Rider Adventures", none, none, none⟩], [⟨1, "Alex Rider", none, 0⟩], [], 2, 1⟩

/-- C6 counterexample to the claim as stated: this record is matched by
the fuzzy fallback (a membership with method fuzzy_match is written),
yet match_all_audiobooks returns 0, not 1, because the fuzzy stage never
increments matches_found. -/
theorem C6_counterexample :
    (match_all_audiobooks cfgC6 dbC6).2 = 0 ∧
    ((match_all_audiobooks cfgC6 dbC6).1.series_matches.map
      (fun m => (m.audiobook_id, m.series_id, m.match_method))) = [(1, 1, "fuzzy_match")] := by
  decide

/-! ## Stage precedence -/

theorem upsert_gives (db : DB) (ab : Audiobook) (s : Series) (c : Nat) (meth : String) :
    ∃ m ∈ (match_audiobook_to_series db ab s c meth).series_matches,
      m.audiobook_id = ab.id ∧ m.match_method = meth ∧ m.confidence_score = c := by
  rcases match_audiobook_upsert_mem db ab s c meth with ⟨m, hm, h1, _, h3, h4⟩
  exact ⟨m, hm, h1, h4, h3⟩

theorem fuzzy_match_len_le (cfg : MatcherConfig) (db : DB) (ab : Audiobook) :
    (fuzzy_match_to_existing_series cfg db ab).series_matches.length ≤
      db.series_matches.length + 1 := by
  unfold fuzzy_match_to_existing_series
  split
  · simp only []
    split
    · simp only [setSeriesIndex_series_matches]
      apply match_audiobook_len_le
    · apply match_audiobook_len_le
  · exact Nat.le_succ _

theorem fuzzy_match_mem_src (cfg : MatcherConfig) (db : DB) (ab : Audiobook)
    (m : SeriesMatch)
    (hm : m ∈ (fuzzy_match_to_existing_series cfg db ab).series_matches) :
    m ∈ db.series_matches ∨ m.match_method = "fuzzy_match" := by
  unfold fuzzy_match_to_existing_series at hm
  split at hm
  · simp only [] at hm
    split at hm <;>
    · try simp only [setSeriesIndex_series_matches] at hm
      rcases match_audiobook_mem_src _ _ _ _ _ _ hm with h | h
      · exact Or.inl h
      · exact Or.inr h.2.2.2
  · exact Or.inl hm

/-- C1 (amended): the four stages run in the order external lookup,
embedded metadata hint, title pattern, fuzzy fallback; whichever stage
fires first determines the single membership written for the record
(with that stage's method tag and fixed score), the membership table
grows by at most one row per record, and once a stage has matched no
later stage writes anything. -/
theorem C1_stage_precedence (cfg : MatcherConfig) (db : DB) (ab : Audiobook) :
    (step cfg db ab).1.series_matches.length ≤ db.series_matches.length + 1 ∧
    (∀ r, externalStageResult cfg ab = some r →
      ∃ m ∈ (step cfg db ab).1.series_matches,
        m.audiobook_id = ab.id ∧ m.match_method = "external_api" ∧ m.confidence_score = 98) ∧
    (externalStageResult cfg ab = none → truthy ab.series_title = true →
      ∃ m ∈ (step cfg db ab).1.series_matches,
        m.audiobook_id = ab.id ∧ m.match_method = "metadata" ∧ m.confidence_score = 95) ∧
    (externalStageResult cfg ab = none → truthy ab.series_title = false →
      truthy (extract_series_info ab.title).1 = true →
      ∃ m ∈ (step cfg db ab).1.series_matches,
        m.audiobook_id = ab.id ∧ m.match_method = "title_pattern" ∧ m.confidence_score = 85) ∧
    (externalStageResult cfg ab = none → truthy ab.series_title = false →
      truthy (extract_series_info ab.title).1 = false →
      ∀ m ∈ (step cfg db ab).1.series_matches,
        m ∈ db.series_matches ∨ m.match_method = "fuzzy_match") := by
  refine ⟨?_, ?_, ?_, ?_, ?_⟩
  · cases hext : externalStageResult cfg ab with
    | some r =>
      simp only [step, hext]
      split
      · simp only [setSeriesIndex_series_matches, find_or_create_series_matches]
        rw [← find_or_create_series_matches db (r.series_name.getD "") ab.author]
        apply match_audiobook_len_le
      · split <;>
        · try simp only [setSeriesIndex_series_matches]
          rw [← find_or_create_series_matches db (r.series_name.getD "") ab.author]
          apply match_audiobook_len_le
    | none =>
      by_cases hst : truthy ab.series_title
      · simp only [step, hext, hst, if_true]
        rw [← find_or_create_series_matches db (ab.series_title.getD "") ab.author]
        apply match_audiobook_len_le
      · by_cases hexi : truthy (extract_series_info ab.title).1
        · simp only [step, hext, hst, hexi, Bool.false_eq_true, if_false, if_true,
            setSeriesIndex_series_matches]
          rw [← find_or_create_series_matches db ((extract_series_info ab.title).1.getD "")
            ab.author]
          apply match_audiobook_len_le
        · simp only [step, hext, hst, hexi, Bool.false_eq_true, if_false]
          apply fuzzy_match_len_le
  · intro r hext
    simp only [step, hext]
    split
    · simp only [setSeriesIndex_series_matches]
      exact upsert_gives _ ab _ 98 "external_api"
    · split <;>
      · try simp only [setSeriesIndex_series_matches]
        exact upsert_gives _ ab _ 98 "external_api"
  · intro hext hst
    simp only [step, hext, hst, if_true]
    exact upsert_gives _ ab _ 95 "metadata"
  · intro hext hst hexi
    simp only [step, hext, hst, hexi, Bool.false_eq_true, if_false, if_true,
      setSeriesIndex_series_matches]
    exact upsert_gives _ ab _ 85 "title_pattern"
  · intro hext hst hexi m hm
    simp only [step, hext, hst, hexi, Bool.false_eq_true, if_false] at hm
    exact fuzzy_match_mem_src cfg db ab m hm

def cfgC1w : MatcherConfig := ⟨70, false, none, fun _ _ => 0, fun _ _ => 0⟩

def dbC1w : DB := ⟨[⟨1, "Prelude", none, some "Foundation", none⟩], [], [], 1, 1⟩

/-- Witness for C1 on a record whose embedded hint fires with no
external provider configured. -/
theorem C1_stage_precedence_witness :
    ∃ m ∈ (step cfgC1w dbC1w ⟨1, "Prelude", none, some "Foundation", none⟩).1.series_matches,
      m.audiobook_id = 1 ∧ m.match_method = "metadata" ∧ m.confidence_score = 95 :=
  (C1_stage_precedence cfgC1w dbC1w ⟨1, "Prelude", none, some "Foundation", none⟩).2.2.1
    (by decide) (by decide)

def cfgC1 : MatcherConfig :=
  ⟨70, true, some (fun _ _ => some ⟨some "Galactic Empire", some "2"⟩),
   fun _ _ => 0, fun _ _ => 0⟩

def dbC1 : DB :=
  ⟨[⟨1, "Foundation and Empire", some "Isaac Asimov", some "Foundation", none⟩], [], [], 1, 1⟩

/-- C1 counterexample to the claimed stage order: this record carries a
truthy embedded series hint, so under the claimed precedence (embedded
hint before external lookup) its membership would be method metadata
with score 95; the code runs the external lookup first and writes
external_api with score 98. -/
theorem C1_counterexample :
    truthy (⟨1, "Foundation and Empire", some "Isaac Asimov", some "Foundation", none⟩
      : Audiobook).series_title = true ∧
    ((match_all_audiobooks cfgC1 dbC1).1.series_matches.map
      (fun m => (m.match_method, m.confidence_score))) = [("external_api", 98)] := by
  decide

/-! ## No duplicate (record, series) membership pairs -/

/-- At most one membership per (audiobook, series) pair. -/
def pairsNodup (ms : List SeriesMatch) : Prop :=
  ms.Pairwise (fun m1 m2 => ¬(m1.audiobook_id = m2.audiobook_id ∧ m1.series_id = m2.series_id))

theorem pairsNodup_updateFirst (p : SeriesMatch → Bool) (c : Nat) (meth : String)
    (l : List SeriesMatch) (h : pairsNodup l) :
    pairsNodup (updateFirst p
      (fun m => { m with confidence_score := c, match_method := meth }) l) := by
  unfold pairsNodup at h ⊢
  induction l with
  | nil => exact h
  | cons x xs ih =>
    rcases List.pairwise_cons.1 h with ⟨hx, hxs⟩
    unfold updateFirst
    split
    · refine List.pairwise_cons.2 ⟨?_, hxs⟩
      intro y hy
      simpa using hx y hy
    · refine List.pairwise_cons.2 ⟨?_, ih hxs⟩
      intro y hy
      rcases mem_updateFirst _ _ _ _ hy with h2 | ⟨z, hz, _, rfl⟩
      · exact hx y h2
      · simpa using hx z hz

theorem match_audiobook_pairsNodup (db : DB) (ab : Audiobook) (s : Series) (c : Nat)
    (meth : String) (h : pairsNodup db.series_matches) :
    pairsNodup (match_audiobook_to_series db ab s c meth).series_matches := by
  unfold match_audiobook_to_series
  split
  · exact pairsNodup_updateFirst _ c meth _ h
  · rename_i hany
    unfold pairsNodup at h ⊢
    rw [List.pairwise_append]
    refine ⟨h, List.pairwise_singleton _ _, ?_⟩
    intro m hm m2 hm2
    rcases List.mem_singleton.1 hm2 with rfl
    intro hc
    apply hany
    exact List.any_eq_true.2 ⟨m, hm, by simp [hc.1, hc.2]⟩

theorem fuzzy_match_pairsNodup (cfg : MatcherConfig) (db : DB) (ab : Audiobook)
    (h : pairsNodup db.series_matches) :
    pairsNodup (fuzzy_match_to_existing_series cfg db ab).series_matches := by
  unfold fuzzy_match_to_existing_series
  split
  · simp only []
    split
    · simp only [setSeriesIndex_series_matches]
      exact match_audiobook_pairsNodup _ _ _ _ _ h
    · exact match_audiobook_pairsNodup _ _ _ _ _ h
  · exact h

theorem step_pairsNodup (cfg : MatcherConfig) (db : DB) (ab : Audiobook)
    (h : pairsNodup db.series_matches) :
    pairsNodup (step cfg db ab).1.series_matches := by
  cases hext : externalStageResult cfg ab with
  | some r =>
    simp only [step, hext]
    split
    · simp only [setSeriesIndex_series_matches]
      apply match_audiobook_pairsNodup
      simpa using h
    · split <;>
      · try simp only [setSeriesIndex_series_matches]
        apply match_audiobook_pairsNodup
        simpa using h
  | none =>
    by_cases hst : truthy ab.series_title
    · simp only [step, hext, hst, if_true]
      apply match_audiobook_pairsNodup
      simpa using h
    · by_cases hexi : truthy (extract_series_info ab.title).1
      · simp only [step, hext, hst, hexi, Bool.false_eq_true, if_false, if_true,
          setSeriesIndex_series_matches]
        apply match_audiobook_pairsNodup
        simpa using h
      · simp only [step, hext, hst, hexi, Bool.false_eq_true, if_false]
        exact fuzzy_match_pairsNodup cfg db ab h

theorem match_all_pairsNodup_aux (cfg : MatcherConfig) (l : List Audiobook) (db0 : DB)
    (n : Nat) (h : pairsNodup db0.series_matches) :
    pairsNodup ((l.foldl (fun acc ab =>
      let r := step cfg acc.1 ab
      (r.1, acc.2 + r.2)) (db0, n)).1.series_matches) := by
  induction l generalizing db0 n with
  | nil => exact h
  | cons ab l ih =>
    rw [List.foldl_cons]
    exact ih (step cfg db0 ab).1 (n + (step cfg db0 ab).2) (step_pairsNodup cfg db0 ab h)

/-- C2 (amended): one run and a repeated run over an unchanged record
set never create a duplicate membership for any (record, series) pair —
re-matching an existing pair updates its score and method in place.
(The total membership count is however not preserved between the runs:
see the counterexample, where the second run's fuzzy stage matches
against a series that the first run created only later.) -/
theorem C2_no_duplicate_pairs (cfg : MatcherConfig) (db : DB)
    (h : pairsNodup db.series_matches) :
    pairsNodup (match_all_audiobooks cfg db).1.series_matches ∧
    pairsNodup (match_all_audiobooks cfg (match_all_audiobooks cfg db).1).1.series_matches := by
  have h1 : pairsNodup (match_all_audiobooks cfg db).1.series_matches :=
    match_all_pairsNodup_aux cfg db.audiobooks db 0 h
  exact ⟨h1, match_all_pairsNodup_aux cfg _ _ 0 h1⟩

def cfgC2 : MatcherConfig := ⟨70, false, none, containsSim, containsSim⟩

def dbC2 : DB :=
  ⟨[⟨1, "Alex Rider Adventures", none, none, none⟩,
    ⟨2, "Point Blanc", none, some "Alex Rider", none⟩], [], [], 1, 1⟩

/-- Witness for C2 on the concrete record set. -/
theorem C2_no_duplicate_pairs_witness :
    pairsNodup (match_all_audiobooks cfgC2 dbC2).1.series_matches ∧
    pairsNodup
      (match_all_audiobooks cfgC2 (match_all_audiobooks cfgC2 dbC2).1).1.series_matches :=
  C2_no_duplicate_pairs cfgC2 dbC2 List.Pairwise.nil

/-- C2 counterexample to the claim as stated: the first run produces one
membership (the second record via its embedded hint, creating series
"Alex Rider"); the second run over the unchanged record set produces a
second membership, because the first record's fuzzy stage now sees the
series created after it was processed — so the run-twice membership
count differs from the run-once count. -/
theorem C2_counterexample :
    (match_all_audiobooks cfgC2 dbC2).1.series_matches.length = 1 ∧
    (match_all_audiobooks cfgC2
      (match_all_audiobooks cfgC2 dbC2).1).1.series_matches.length = 2 := by
  decide

/-! ## Confidence score bounds -/

theorem fuzzyScore_le (cfg : MatcherConfig) (ab : Audiobook) (s : Series)
    (hsim : ∀ a b, cfg.fuzzPartialRatio a b ≤ 100) : fuzzyScore cfg ab s ≤ 110 := by
  unfold fuzzyScore
  simp only []
  have := hsim (pyLower ab.title) (pyLower s.series_name)
  split <;> omega

theorem match_audiobook_scores_le (db : DB) (ab : Audiobook) (s : Series) (c : Nat)
    (meth : String) (hc : c ≤ 110)
    (hall : ∀ m ∈ db.series_matches, m.confidence_score ≤ 110) :
    ∀ m ∈ (match_audiobook_to_series db ab s c meth).series_matches,
      m.confidence_score ≤ 110 := by
  intro m hm
  rcases match_audiobook_mem_src _ _ _ _ _ _ hm with h | h
  · exact hall m h
  · rw [h.2.2.1]
    exact hc

theorem fuzzy_match_scores_le (cfg : MatcherConfig) (db : DB) (ab : Audiobook)
    (hsim : ∀ a b, cfg.fuzzPartialRatio a b ≤ 100)
    (hall : ∀ m ∈ db.series_matches, m.confidence_score ≤ 110) :
    ∀ m ∈ (fuzzy_match_to_existing_series cfg db ab).series_matches,
      m.confidence_score ≤ 110 := by
  rcases hfb : fuzzyBest cfg ab db.series with ⟨b, sc⟩
  cases b with
  | none =>
    have he : fuzzy_match_to_existing_series cfg db ab = db := by
      unfold fuzzy_match_to_existing_series
      rw [hfb]
    rw [he]
    exact hall
  | some b =>
    have hsc : sc = fuzzyScore cfg ab b :=
      (fuzzyBest_some_spec cfg ab db.series b sc hfb).2.1
    have he : fuzzy_match_to_existing_series cfg db ab =
        (if truthy (extract_series_info ab.title).2 = true then
          setSeriesIndex (match_audiobook_to_series db ab b sc "fuzzy_match") ab.id
            (extract_series_info ab.title).2
         else match_audiobook_to_series db ab b sc "fuzzy_match") := by
      unfold fuzzy_match_to_existing_series
      rw [hfb]
    rw [he]
    have hb : sc ≤ 110 := by
      rw [hsc]
      exact fuzzyScore_le cfg ab b hsim
    split
    · simp only [setSeriesIndex_series_matches]
      exact match_audiobook_scores_le db ab b sc "fuzzy_match" hb hall
    · exact match_audiobook_scores_le db ab b sc "fuzzy_match" hb hall

theorem step_scores_le (cfg : MatcherConfig) (db : DB) (ab : Audiobook)
    (hsim : ∀ a b, cfg.fuzzPartialRatio a b ≤ 100)
    (hall : ∀ m ∈ db.series_matches, m.confidence_score ≤ 110) :
    ∀ m ∈ (step cfg db ab).1.series_matches, m.confidence_score ≤ 110 := by
  cases hext : externalStageResult cfg ab with
  | some r =>
    simp only [step, hext]
    split
    · simp only [setSeriesIndex_series_matches]
      exact match_audiobook_scores_le _ ab _ 98 "external_api" (by omega)
        (by simpa using hall)
    · split <;>
      · try simp only [setSeriesIndex_series_matches]
        exact match_audiobook_scores_le _ ab _ 98 "external_api" (by omega)
          (by simpa using hall)
  | none =>
    by_cases hst : truthy ab.series_title
    · simp only [step, hext, hst, if_true]
      exact match_audiobook_scores_le _ ab _ 95 "metadata" (by omega)
        (by simpa using hall)
    · by_cases hexi : truthy (extract_series_info ab.title).1
      · simp only [step, hext, hst, hexi, Bool.false_eq_true, if_false, if_true,
          setSeriesIndex_series_matches]
        exact match_audiobook_scores_le _ ab _ 85 "title_pattern" (by omega)
          (by simpa using hall)
      · simp only [step, hext, hst, hexi, Bool.false_eq_true, if_false]
        exact fuzzy_match_scores_le cfg db ab hsim hall

theorem match_all_scores_aux (cfg : MatcherConfig) (l : List Audiobook) (db0 : DB)
    (n : Nat) (hsim : ∀ a b, cfg.fuzzPartialRatio a b ≤ 100)
    (hall : ∀ m ∈ db0.series_matches, m.confidence_score ≤ 110) :
    ∀ m ∈ (l.foldl (fun acc ab =>
      let r := step cfg acc.1 ab
      (r.1, acc.2 + r.2)) (db0, n)).1.series_matches, m.confidence_score ≤ 110 := by
  induction l generalizing db0 n with
  | nil => exact hall
  | cons ab l ih =>
    rw [List.foldl_cons]
    exact ih (step cfg db0 ab).1 (n + (step cfg db0 ab).2)
      (step_scores_le cfg db0 ab hsim hall)

/-- C5 (amended): every membership written by the pipeline carries an
integer score between 0 and 110, not 100: the external, metadata and
title-pattern stages write the fixed scores 98, 95 and 85, while the
fuzzy stage writes a 0-100 similarity plus an unclamped +10 author
bonus, so 110 is reachable (see the counterexample). -/
theorem C5_score_bound (cfg : MatcherConfig) (db : DB)
    (hsim : ∀ a b, cfg.fuzzPartialRatio a b ≤ 100)
    (hall : ∀ m ∈ db.series_matches, m.confidence_score ≤ 110) :
    ∀ m ∈ (match_all_audiobooks cfg db).1.series_matches, m.confidence_score ≤ 110 :=
  match_all_scores_aux cfg db.audiobooks db 0 hsim hall

/-- The concrete similarity oracle stays within fuzzywuzzy's documented
0-100 range. -/
theorem containsSim_le (a b : String) : containsSim a b ≤ 100 := by
  unfold containsSim
  split <;> omega

def cfgC5 : MatcherConfig := ⟨70, false, none, containsSim, containsSim⟩

def dbC5 : DB :=
  ⟨[⟨1, "Alex Rider Adventures", some "Anthony Horowitz", none, none⟩],
   [⟨1, "Alex Rider", some "Anthony Horowitz", 0⟩], [], 2, 1⟩

/-- Witness for C5: the single membership the concrete scenario writes
(score 110) is within the proved bound. -/
theorem C5_score_bound_witness :
    (⟨1, 1, 1, 110, "fuzzy_match", false, false⟩ : SeriesMatch).confidence_score ≤ 110 :=
  C5_score_bound cfgC5 dbC5 containsSim_le (by simp [dbC5])
    ⟨1, 1, 1, 110, "fuzzy_match", false, false⟩ (by decide)

/-- C5 counterexample to the claim as stated: a fuzzy candidate with
partial-ratio 100 and matching authors receives the +10 bonus, and the
membership is written with confidence score 110 > 100. -/
theorem C5_counterexample :
    ((match_all_audiobooks cfgC5 dbC5).1.series_matches.map
      (fun m => m.confidence_score)) = [110] := by
  decide

/-! ## Rate-limit cooldown behaviour of the lookup layer -/

theorem cacheFind_insert (cache : List (String × Option ExtResult)) (key : String)
    (v : Option ExtResult) : cacheFind (cacheInsert cache key v) key = some v := by
  induction cache with
  | nil => simp [cacheInsert, cacheFind]
  | cons p rest ih =>
    by_cases hp : p.1 == key
    · simp [cacheInsert, cacheFind, hp]
    · have he : cacheInsert (p :: rest) key v = p :: cacheInsert rest key v := by
        simp [cacheInsert, hp]
      rw [he]
      unfold cacheFind
      rw [List.find?_cons_of_neg _ (by simpa using hp)]
      exact ih

/-- C3 (amended): once the cooldown deadline is ahead of the clock,
every lookup whose key misses the cache returns no result without
issuing a network request, and that negative outcome is written into the
cache under the lookup's key — so any repeat of the same lookup, during
or after the cooldown window, answers no-result from the cache without
ever retrying the network.  (A lookup whose key is already cached is
answered from the cache — possibly positively — because the cache is
checked before the cooldown gate; see the counterexample.) -/
theorem C3_cooldown_negative_caching (minI : Nat) (st : LookupState) (title : String)
    (author : Option String) (now : Nat) (net : GBResponse)
    (hmiss : cacheFind st.cache (gbCacheKey title author) = none)
    (hcool : now < st.rate_limited_until) :
    (lookup_google_books minI st title author now net).1 = none ∧
    (lookup_google_books minI st title author now net).2.2 = false ∧
    ∀ (now2 : Nat) (net2 : GBResponse),
      lookup_google_books minI (lookup_google_books minI st title author now net).2.1
        title author now2 net2 =
      (none, (lookup_google_books minI st title author now net).2.1, false) := by
  have hstep : lookup_google_books minI st title author now net =
      (none, { st with cache := cacheInsert st.cache (gbCacheKey title author) none },
       false) := by
    simp [lookup_google_books, hmiss, hcool]
  refine ⟨by rw [hstep], by rw [hstep], ?_⟩
  intro now2 net2
  rw [hstep]
  simp [lookup_google_books, cacheFind_insert]

def stC3w : LookupState := ⟨[("A:None", some ⟨some "Alex Rider", some "1"⟩)], 110, 170⟩

/-- Witness for C3: inside the cooldown window (clock 120, deadline 170)
a fresh key returns no result without a request; repeating it at clock
200, after the deadline, with a network that would now answer
positively, still returns the cached no-result without a request. -/
theorem C3_cooldown_negative_caching_witness :
    (lookup_google_books 2 stC3w "C" none 120 (.ok none)).1 = none ∧
    (lookup_google_books 2 stC3w "C" none 120 (.ok none)).2.2 = false ∧
    lookup_google_books 2 (lookup_google_books 2 stC3w "C" none 120 (.ok none)).2.1
      "C" none 200 (.ok (some ⟨some "Alex Rider", some "2"⟩)) =
      (none, (lookup_google_books 2 stC3w "C" none 120 (.ok none)).2.1, false) := by
  have h := C3_cooldown_negative_caching 2 stC3w "C" none 120 (.ok none)
    (by decide) (by decide)
  exact ⟨h.1, h.2.1, h.2.2 200 (.ok (some ⟨some "Alex Rider", some "2"⟩))⟩

/-- The state reached from a fresh SeriesLookup by: a successful lookup
of "A" at clock 100, then a lookup of "B" at clock 110 answered with
HTTP 429 (starting a 60-second cooldown). -/
def stC3 : LookupState :=
  (lookup_google_books 2
    (lookup_google_books 2 initialLookupState "A" none 100
      (.ok (some ⟨some "Alex Rider", some "1"⟩))).2.1
    "B" none 110 .status429).2.1

/-- C3 counterexample to the claim as stated: at clock 120 the cooldown
is still active (deadline 170), yet repeating the earlier lookup of "A"
returns the cached positive result, not "no result", because the code
consults the cache before the cooldown gate. -/
theorem C3_counterexample :
    stC3.rate_limited_until = 170 ∧
    lookup_google_books 2 stC3 "A" none 120 (.ok none) =
      (some ⟨some "Alex Rider", some "1"⟩, stC3, false) := by
  decide

end PlexShelf
